import Mathlib

/-!
# Verification of the expense-tracker core logic (src/app.py)

This file gives a shallow embedding of the request-handling and data-access
logic of the expense-tracking application and proves properties of it.

Modelling conventions:
* The SQLite store is a `Db` value: three lists of rows plus AUTOINCREMENT
  counters.  Primary-key ids are `Nat`; `REAL` amounts are exact rationals
  (double rounding is not modelled); the `is_essential` column is the stored
  integer `0`/`1`.
* `float(...)` in Python is modelled by `parsePyFloat`, following the CPython
  grammar for decimal literals (sign, digit groups with underscores, decimal
  point, exponent) together with the `inf` / `infinity` / `nan` spellings.
  A non-finite parse result is represented by the `PyFloat` constructors
  `inf` and `nan`; the comparison `amount_f <= 0` is `PyFloat.le0`.
* Python `str.strip` is `pyStrip`, and `str.isdigit` is `pyIsDigit`
  (ASCII digits; the unicode digit classes are out of the modelled input).
* SQLite compares `TEXT` values bytewise, which on the stored strings agrees
  with the lexicographic `String` order used here.
* A handler returns its new `Db` together with a `HandlerResult` describing
  the response (redirect after success, forbidden redirect, not-found
  redirect, or re-rendered form with the collected error messages).
-/

/-- A row of the `users` table. -/
structure DUser where
  id : Nat
  username : String
  password : String
  role : String
deriving DecidableEq

/-- A row of the `categories` table. -/
structure DCategory where
  id : Nat
  name : String
deriving DecidableEq

/-- A row of the `expenses` table. -/
structure DExpense where
  id : Nat
  user_id : Nat
  category_id : Nat
  amount : ℚ
  description : String
  expense_date : String
  is_essential : Nat
deriving DecidableEq

/-- The persistent store: the three tables plus AUTOINCREMENT counters. -/
structure Db where
  users : List DUser
  categories : List DCategory
  expenses : List DExpense
  nextUserId : Nat
  nextCategoryId : Nat
  nextExpenseId : Nat
deriving DecidableEq

/-- The session established at login: `session["user_id"]` and `session["role"]`. -/
structure Session where
  user_id : Nat
  role : String
deriving DecidableEq

/-- The characters Python `str.strip` removes (ASCII whitespace). -/
def isSpaceChar (c : Char) : Bool :=
  (c == ' ') || (c == '\t') || (c == '\n') || (c == '\r') || (c == '\x0b') || (c == '\x0c')

/-- Models Python `s.strip()` on ASCII input: drops leading and trailing
whitespace. -/
def pyStrip (s : String) : String :=
  ⟨((s.data.dropWhile isSpaceChar).reverse.dropWhile isSpaceChar).reverse⟩

/-- Models Python `s.isdigit()` on ASCII input: non-empty and all digits. -/
def pyIsDigit (s : String) : Bool :=
  !(s == "") && s.data.all (fun c => c.isDigit)

/-- Models Python `int(s)` on a digit string. -/
def digitStringToNat (s : String) : Nat :=
  s.data.foldl (fun a c => a * 10 + (c.toNat - 48)) 0

/-- The value classes a Python `float(...)` call can produce. -/
inductive PyFloat where
  | finite (q : ℚ)
  | inf (neg : Bool)
  | nan
deriving DecidableEq

/-- Models the Python comparison `v <= 0.0` (false for NaN). -/
def PyFloat.le0 : PyFloat → Bool
  | .finite q => decide (q ≤ 0)
  | .inf neg => neg
  | .nan => false

/-- The rational stored for a parsed amount; the handlers only reach this on a
finite value for in-range inputs (a non-finite REAL is out of the modelled
store). -/
def PyFloat.toRat : PyFloat → ℚ
  | .finite q => q
  | _ => 0

/-- Consumes a maximal digit group, allowing an underscore between two digits
as CPython does; returns the value, the number of digits and the rest. -/
def digitsAux : Nat → Nat → List Char → Nat × Nat × List Char
  | acc, n, [] => (acc, n, [])
  | acc, n, c :: cs =>
    if c.isDigit then digitsAux (acc * 10 + (c.toNat - 48)) (n + 1) cs
    else if c = '_' then
      match cs with
      | d :: ds =>
        if d.isDigit then digitsAux (acc * 10 + (d.toNat - 48)) (n + 1) ds
        else (acc, n, c :: cs)
      | [] => (acc, n, c :: cs)
    else (acc, n, c :: cs)

/-- An optional leading sign; returns whether it was a minus and the rest. -/
def parseSign : List Char → Bool × List Char
  | '+' :: cs => (false, cs)
  | '-' :: cs => (true, cs)
  | cs => (false, cs)

/-- The mantissa of a float literal: `digits [. digits]`, `digits.` or
`. digits`; returns its exact value and the unconsumed rest. -/
def parseMantissa : List Char → Option (ℚ × List Char)
  | [] => none
  | c :: cs =>
    if c.isDigit then
      match digitsAux (c.toNat - 48) 1 cs with
      | (iv, _, rest) =>
        match rest with
        | '.' :: rest2 =>
          match rest2 with
          | d :: rest3 =>
            if d.isDigit then
              match digitsAux (d.toNat - 48) 1 rest3 with
              | (fv, fn, rest4) => some ((iv : ℚ) + (fv : ℚ) / 10 ^ fn, rest4)
            else some ((iv : ℚ), d :: rest3)
          | [] => some ((iv : ℚ), [])
        | _ => some ((iv : ℚ), rest)
    else if c = '.' then
      match cs with
      | d :: rest =>
        if d.isDigit then
          match digitsAux (d.toNat - 48) 1 rest with
          | (fv, fn, rest2) => some ((fv : ℚ) / 10 ^ fn, rest2)
        else none
      | [] => none
    else none

/-- Applies a decimal exponent to an exact mantissa value. -/
def applyExp (q : ℚ) (eneg : Bool) (e : Nat) : ℚ :=
  if eneg then q / 10 ^ e else q * 10 ^ e

/-- The optional exponent part: on empty input returns the mantissa value,
otherwise requires `e`/`E`, an optional sign and a digit group consuming the
whole rest. -/
def parseExpPart (q : ℚ) : List Char → Option ℚ
  | [] => some q
  | c :: cs =>
    if c = 'e' ∨ c = 'E' then
      match parseSign cs with
      | (eneg, cs2) =>
        match cs2 with
        | d :: ds =>
          if d.isDigit then
            match digitsAux (d.toNat - 48) 1 ds with
            | (ev, _, rest) => if rest = [] then some (applyExp q eneg ev) else none
          else none
        | [] => none
    else none

/-- The body of a float literal after the sign: the `inf` / `infinity` / `nan`
spellings (case-insensitive) or a decimal mantissa with optional exponent. -/
def parseAfterSign (neg : Bool) (cs : List Char) : Option PyFloat :=
  let low := cs.map Char.toLower
  if low = ['i', 'n', 'f'] ∨ low = ['i', 'n', 'f', 'i', 'n', 'i', 't', 'y'] then
    some (.inf neg)
  else if low = ['n', 'a', 'n'] then some .nan
  else
    match parseMantissa cs with
    | none => none
    | some (q, rest) =>
      match parseExpPart q rest with
      | none => none
      | some v => some (.finite (if neg then -v else v))

/-- Models Python `float(s)` on an already stripped string: `some` a value
class on success, `none` when `ValueError` is raised. -/
def parsePyFloat (s : String) : Option PyFloat :=
  match s.data with
  | [] => none
  | cs =>
    match parseSign cs with
    | (neg, rest) => if rest = [] then none else parseAfterSign neg rest

/-- The validation block shared by `add_expense` and `edit_expense`, on the
already stripped form values: collects every violated rule, in source
order. -/
def validateExpenseForm (category_id amount description expense_date : String) :
    List String :=
  (if pyIsDigit category_id then [] else ["Please select a valid category."])
    ++ (match parsePyFloat amount with
        | some v => if v.le0 then ["Amount must be greater than 0."] else []
        | none => ["Please enter a valid number for amount."])
    ++ (if description = "" then ["Description is required."] else [])
    ++ (if expense_date = "" then ["Date is required (YYYY-MM-DD)."] else [])

/-- The add/edit form: `request.form.get` of each field; `is_essential` is
`none` when the field is absent from the submission. -/
structure ExpenseForm where
  category_id : String
  amount : String
  description : String
  expense_date : String
  is_essential : Option String
deriving DecidableEq

/-- The outcome of a mutating handler: redirect after success, not-found
redirect, forbidden redirect, or the re-rendered form carrying the collected
error messages. -/
inductive HandlerResult where
  | ok
  | notFound
  | forbidden
  | invalid (errors : List String)
deriving DecidableEq

/-- The `POST /expenses/add` handler body: strip the fields, derive the
essential flag from `form.get("is_essential") == "on"`, validate, and insert
a row owned by the session identity when there are no errors. -/
def add_expense (db : Db) (sess : Session) (form : ExpenseForm) :
    Db × HandlerResult :=
  let category_id := pyStrip form.category_id
  let amount := pyStrip form.amount
  let description := pyStrip form.description
  let expense_date := pyStrip form.expense_date
  let is_essential : Nat := if form.is_essential = some "on" then 1 else 0
  let errors := validateExpenseForm category_id amount description expense_date
  if errors = [] then
    ({ db with
        expenses := db.expenses ++
          [{ id := db.nextExpenseId
             user_id := sess.user_id
             category_id := digitStringToNat category_id
             amount := (match parsePyFloat amount with
                        | some v => v.toRat
                        | none => 0)
             description := description
             expense_date := expense_date
             is_essential := is_essential }]
        nextExpenseId := db.nextExpenseId + 1 },
      .ok)
  else (db, .invalid errors)

/-- The `POST /expenses/{id}/edit` handler body: load the row, report
not-found, check owner-or-admin before anything else, validate, and on
success overwrite the mutable columns of the row with that id. -/
def edit_expense (db : Db) (sess : Session) (expense_id : Nat)
    (form : ExpenseForm) : Db × HandlerResult :=
  match db.expenses.find? (fun e => e.id == expense_id) with
  | none => (db, .notFound)
  | some e =>
    if !(sess.role == "admin") && !(e.user_id == sess.user_id) then
      (db, .forbidden)
    else
      let category_id := pyStrip form.category_id
      let amount := pyStrip form.amount
      let description := pyStrip form.description
      let expense_date := pyStrip form.expense_date
      let is_essential : Nat := if form.is_essential = some "on" then 1 else 0
      let errors := validateExpenseForm category_id amount description expense_date
      if errors = [] then
        ({ db with
            expenses := db.expenses.map (fun x =>
              if x.id == expense_id then
                { x with
                    category_id := digitStringToNat category_id
                    amount := (match parsePyFloat amount with
                               | some v => v.toRat
                               | none => 0)
                    description := description
                    expense_date := expense_date
                    is_essential := is_essential }
              else x) },
          .ok)
      else (db, .invalid errors)

/-- The `POST /expenses/{id}/delete` handler body: load the row, report
not-found, check owner-or-admin, then delete the row with that id. -/
def delete_expense (db : Db) (sess : Session) (expense_id : Nat) :
    Db × HandlerResult :=
  match db.expenses.find? (fun e => e.id == expense_id) with
  | none => (db, .notFound)
  | some e =>
    if !(sess.role == "admin") && !(e.user_id == sess.user_id) then
      (db, .forbidden)
    else
      ({ db with expenses := db.expenses.filter (fun x => !(x.id == expense_id)) },
        .ok)

/-! ## The listing query (`GET /expenses`) -/

/-- Lexicographic strict order on character lists by codepoint, the order in
which SQLite compares `TEXT` values bytewise (UTF-8 preserves codepoint
order). -/
def lexLt : List Char → List Char → Bool
  | [], [] => false
  | [], _ :: _ => true
  | _ :: _, [] => false
  | a :: as, b :: bs =>
    if a.toNat < b.toNat then true
    else if b.toNat < a.toNat then false
    else lexLt as bs

/-- The `<` comparison SQLite applies to two stored `TEXT` values. -/
def strLtB (a b : String) : Bool := lexLt a.data b.data

/-- The `<=` comparison SQLite applies to two stored `TEXT` values. -/
def strLeB (a b : String) : Bool := !(strLtB b a)

/-- A row of the listing SELECT: the expense joined with its category name and
owner name (the join attributes `user_id` and `category_id` are kept on the
row). -/
structure ListedRow where
  id : Nat
  user_id : Nat
  category_id : Nat
  amount : ℚ
  description : String
  expense_date : String
  is_essential : Nat
  category_name : String
  owner : String
deriving DecidableEq

/-- The inner join of one expense with `categories` and `users` (ids are
primary keys, so the first match is the row). -/
def joinRow (cats : List DCategory) (users : List DUser) (e : DExpense) :
    Option ListedRow :=
  match cats.find? (fun c => c.id == e.category_id),
        users.find? (fun u => u.id == e.user_id) with
  | some c, some u =>
    some { id := e.id, user_id := e.user_id, category_id := e.category_id
           amount := e.amount, description := e.description
           expense_date := e.expense_date, is_essential := e.is_essential
           category_name := c.name, owner := u.username }
  | _, _ => none

/-- The conjunction of the WHERE clauses built from the (already stripped)
query parameters: each clause is guarded by the condition under which the
code appends it to `where_clauses`. -/
def rowMatches (sess : Session) (category_id date_from date_to essential : String)
    (r : ListedRow) : Bool :=
  (sess.role == "admin" || r.user_id == sess.user_id)
    && (!(pyIsDigit category_id) || r.category_id == digitStringToNat category_id)
    && (date_from == "" || strLeB date_from r.expense_date)
    && (date_to == "" || strLeB r.expense_date date_to)
    && (!(essential == "0" || essential == "1")
        || r.is_essential == digitStringToNat essential)

/-- The clause `ORDER BY e.expense_date DESC, e.id DESC` as a relation on rows. -/
def rowOrder (a b : ListedRow) : Prop :=
  strLtB b.expense_date a.expense_date = true
    ∨ (a.expense_date = b.expense_date ∧ b.id ≤ a.id)

instance rowOrderDec : DecidableRel rowOrder := fun a b =>
  inferInstanceAs (Decidable (strLtB b.expense_date a.expense_date = true
    ∨ (a.expense_date = b.expense_date ∧ b.id ≤ a.id)))

/-- The raw query parameters of `GET /expenses`. -/
structure QueryParams where
  category_id : String
  date_from : String
  date_to : String
  essential : String
deriving DecidableEq

/-- The listing query: strip the parameters, join, filter by the built WHERE
clauses, and sort by date descending then id descending. -/
def expensesQuery (db : Db) (sess : Session) (p : QueryParams) : List ListedRow :=
  let category_id := pyStrip p.category_id
  let date_from := pyStrip p.date_from
  let date_to := pyStrip p.date_to
  let essential := pyStrip p.essential
  List.insertionSort rowOrder
    ((db.expenses.filterMap (joinRow db.categories db.users)).filter
      (rowMatches sess category_id date_from date_to essential))

/-! ## The aggregation step -/

/-- One step of the totals loop: `total += amt` and
`totals_by_category[cname] = totals_by_category.get(cname, 0.0) + amt`,
on an insertion-ordered association list. -/
def updateCategoryTotal (m : List (String × ℚ)) (c : String) (amt : ℚ) :
    List (String × ℚ) :=
  if m.any (fun p => p.1 == c) then
    m.map (fun p => if p.1 == c then (p.1, p.2 + amt) else p)
  else m ++ [(c, amt)]

/-- The loop body over one listed row. -/
def computeTotalsStep (acc : ℚ × List (String × ℚ)) (r : ListedRow) :
    ℚ × List (String × ℚ) :=
  (acc.1 + r.amount, updateCategoryTotal acc.2 r.category_name r.amount)

/-- The totals loop of the listing handler: the grand total and the
per-category subtotal mapping in insertion order. -/
def computeTotals (rows : List ListedRow) : ℚ × List (String × ℚ) :=
  rows.foldl computeTotalsStep (0, [])

/-- Reads a subtotal out of the mapping (0 when the key is absent). -/
def lookupTotal (m : List (String × ℚ)) (c : String) : ℚ :=
  match m.find? (fun p => p.1 == c) with
  | some p => p.2
  | none => 0

/-- The keys of the result of the totals loop: first-seen order of the
category names. -/
def firstSeen (l : List String) : List String :=
  l.foldl (fun acc c => if acc.any (fun x => x == c) then acc else acc ++ [c]) []

/-! ## Guards and bootstrap -/

/-- A handler response: a redirect to a named endpoint or a rendered page. -/
inductive Response where
  | redirect (endpoint : String)
  | page (name : String)
deriving DecidableEq

/-- The `admin_required` decorator: when the session role is not `admin` it
flashes and redirects to the `index` endpoint without running the view. -/
def admin_required (view : Session → Response) (sess : Session) : Response :=
  if !(sess.role == "admin") then Response.redirect "index" else view sess

/-- Models `INSERT OR IGNORE INTO categories(name) VALUES (?)`. -/
def insertOrIgnoreCategory (db : Db) (name : String) : Db :=
  if db.categories.any (fun c => c.name == name) then db
  else
    { db with
        categories := db.categories ++ [{ id := db.nextCategoryId, name := name }]
        nextCategoryId := db.nextCategoryId + 1 }

/-- Models `INSERT OR IGNORE INTO users(username, password, role) VALUES (?,?,?)`. -/
def insertOrIgnoreUser (db : Db) (username password role : String) : Db :=
  if db.users.any (fun u => u.username == username) then db
  else
    { db with
        users := db.users ++
          [{ id := db.nextUserId, username := username, password := password
             role := role }]
        nextUserId := db.nextUserId + 1 }

/-- The six seed category names, in source order. -/
def defaultCategories : List String :=
  ["Food", "Transport", "Rent", "Shopping", "Bills", "Other"]

/-- The seeding part of `init_db`: the table DDL is `CREATE TABLE IF NOT
EXISTS` and does not touch rows, so on the store state `init_db` is the
sequence of `INSERT OR IGNORE` statements. -/
def init_db (db : Db) : Db :=
  let db1 := defaultCategories.foldl insertOrIgnoreCategory db
  let db2 := insertOrIgnoreUser db1 "student" "student123" "user"
  insertOrIgnoreUser db2 "admin" "admin123" "admin"

/-! ## Concrete fixtures used to instantiate the theorems -/

/-- A store with the two seed accounts, two categories and no expenses. -/
def dbFix : Db :=
  { users := [{ id := 1, username := "student", password := "student123", role := "user" },
              { id := 2, username := "admin", password := "admin123", role := "admin" }]
    categories := [{ id := 1, name := "Food" }, { id := 2, name := "Rent" }]
    expenses := []
    nextUserId := 3, nextCategoryId := 3, nextExpenseId := 1 }

/-- The session of the seed member account. -/
def sessFix : Session := { user_id := 1, role := "user" }

/-- A non-administrator session of a different user. -/
def sessOther : Session := { user_id := 99, role := "user" }

/-- A valid add-expense submission. -/
def formFix : ExpenseForm :=
  { category_id := "1", amount := "5", description := "lunch"
    expense_date := "2024-01-01", is_essential := some "on" }

/-- The store after the member added one expense. -/
def dbFix1 : Db := (add_expense dbFix sessFix formFix).1

/-- The row the listing returns for the expense in `dbFix1`. -/
def rowFix : ListedRow :=
  { id := 1, user_id := 1, category_id := 1, amount := 5
    description := "lunch", expense_date := "2024-01-01", is_essential := 1
    category_name := "Food", owner := "student" }

/-- The listing parameters with every filter left empty. -/
def pEmpty : QueryParams :=
  { category_id := "", date_from := "", date_to := "", essential := "" }

/-! ## Theorems -/

/-- C1: for every non-administrator session, every row returned by the
listing query has `user_id` equal to the session user id, for every
combination of filter parameters: the owner clause is always part of the
conjunction and no parameter can remove it. -/
theorem listing_rows_owned (db : Db) (sess : Session) (p : QueryParams)
    (r : ListedRow) (hrole : sess.role ≠ "admin")
    (hmem : r ∈ expensesQuery db sess p) : r.user_id = sess.user_id := by
  simp only [expensesQuery] at hmem
  rw [List.mem_insertionSort] at hmem
  have h := (List.mem_filter.mp hmem).2
  unfold rowMatches at h
  simp only [Bool.and_eq_true, Bool.or_eq_true, beq_iff_eq] at h
  rcases h with ⟨⟨⟨⟨h1, _⟩, _⟩, _⟩, _⟩
  rcases h1 with h1 | h1
  · exact absurd h1 hrole
  · exact h1

theorem listing_rows_owned_witness : rowFix.user_id = sessFix.user_id :=
  listing_rows_owned dbFix1 sessFix pEmpty rowFix (by decide) (by decide)

/-- C2: a session that is neither the owner of the target expense nor an
administrator gets a forbidden redirect from both edit and delete, and the
store (hence every stored field of the expense) is unchanged. -/
theorem edit_delete_nonowner_forbidden (db : Db) (sess : Session) (eid : Nat)
    (form : ExpenseForm) (e : DExpense) (hrole : sess.role ≠ "admin")
    (hfind : db.expenses.find? (fun x => x.id == eid) = some e)
    (howner : e.user_id ≠ sess.user_id) :
    edit_expense db sess eid form = (db, .forbidden)
      ∧ delete_expense db sess eid = (db, .forbidden) := by
  have hguard : (!(sess.role == "admin") && !(e.user_id == sess.user_id)) = true := by
    simp [hrole, howner]
  constructor
  · unfold edit_expense
    rw [hfind]
    simp [hguard]
  · unfold delete_expense
    rw [hfind]
    simp [hguard]

theorem edit_delete_nonowner_forbidden_witness :
    edit_expense dbFix1 sessOther 1 formFix = (dbFix1, .forbidden)
      ∧ delete_expense dbFix1 sessOther 1 = (dbFix1, .forbidden) :=
  edit_delete_nonowner_forbidden dbFix1 sessOther 1 formFix
    { id := 1, user_id := 1, category_id := 1, amount := 5
      description := "lunch", expense_date := "2024-01-01", is_essential := 1 }
    (by decide) (by decide) (by decide)

/-- C7 (counterexample): a non-administrator request through the
`admin_required` guard is redirected to the `index` endpoint (the home
page), which is not the `expenses` listing endpoint the claim names. -/
theorem admin_required_target_counterexample :
    admin_required (fun _ => Response.page "categories") { user_id := 1, role := "user" }
        = Response.redirect "index"
      ∧ Response.redirect "index" ≠ Response.redirect "expenses" := by
  exact ⟨rfl, by decide⟩

/-- C7 (amended): whenever the `admin_required` guard runs with a session
whose role is not administrator, the wrapped handler is not executed (the
result is the same for every handler) and the request is redirected to the
`index` endpoint. -/
theorem admin_required_blocks (view : Session → Response) (sess : Session)
    (hrole : sess.role ≠ "admin") :
    admin_required view sess = Response.redirect "index" := by
  unfold admin_required
  simp [hrole]

theorem admin_required_blocks_witness :
    admin_required (fun _ => Response.page "categories") { user_id := 1, role := "user" }
      = Response.redirect "index" :=
  admin_required_blocks _ _ (by decide)

/-- Helper: a list is pointwise related to its image under a map. -/
theorem forall2_map_self {α : Type} (R : α → α → Prop) (g : α → α)
    (h : ∀ a, R a (g a)) : ∀ l : List α, List.Forall₂ R l (l.map g)
  | [] => List.Forall₂.nil
  | a :: l => List.Forall₂.cons (h a) (forall2_map_self R g h l)

/-- C10: a successful edit leaves the users and categories tables unchanged
and rewrites the expenses table pointwise: every row keeps its identifier and
its owner, and every row whose id is not the edited one is completely
unchanged. -/
theorem edit_expense_frame (db : Db) (sess : Session) (eid : Nat)
    (form : ExpenseForm) (db' : Db)
    (h : edit_expense db sess eid form = (db', .ok)) :
    db'.users = db.users ∧ db'.categories = db.categories ∧
      List.Forall₂
        (fun a b => b.id = a.id ∧ b.user_id = a.user_id ∧ (a.id ≠ eid → b = a))
        db.expenses db'.expenses := by
  simp only [edit_expense] at h
  split at h
  · simp at h
  · split at h
    · simp at h
    · by_cases he : validateExpenseForm (pyStrip form.category_id)
          (pyStrip form.amount) (pyStrip form.description)
          (pyStrip form.expense_date) = []
      · rw [if_pos he] at h
        simp only [Prod.mk.injEq] at h
        obtain ⟨hdb, -⟩ := h
        subst hdb
        refine ⟨rfl, rfl, ?_⟩
        apply forall2_map_self
        intro a
        by_cases ha : (a.id == eid) = true
        · refine ⟨by simp [ha], by simp [ha], ?_⟩
          intro hne
          exact absurd (by simpa using ha) hne
        · simp [ha]
      · rw [if_neg he] at h
        simp at h

theorem edit_expense_frame_witness :
    (edit_expense dbFix1 sessFix 1
        { category_id := "2", amount := "7", description := "dinner"
          expense_date := "2024-02-02", is_essential := none }).1.users
        = dbFix1.users
      ∧ (edit_expense dbFix1 sessFix 1
          { category_id := "2", amount := "7", description := "dinner"
            expense_date := "2024-02-02", is_essential := none }).1.categories
        = dbFix1.categories
      ∧ List.Forall₂
          (fun a b => b.id = a.id ∧ b.user_id = a.user_id ∧ (a.id ≠ 1 → b = a))
          dbFix1.expenses
          (edit_expense dbFix1 sessFix 1
            { category_id := "2", amount := "7", description := "dinner"
              expense_date := "2024-02-02", is_essential := none }).1.expenses :=
  edit_expense_frame dbFix1 sessFix 1
    { category_id := "2", amount := "7", description := "dinner"
      expense_date := "2024-02-02", is_essential := none } _ (by decide)

/-- C6 (counterexample): a submission carrying the `is_essential` marker with
the value `"true"` (marker present) stores the essential flag as `0`: the
stored flag is not presence-based, it requires the exact value `"on"`. -/
theorem essential_flag_value_counterexample :
    ((add_expense dbFix sessFix
          { category_id := "1", amount := "5", description := "x"
            expense_date := "2024-01-01", is_essential := some "true" }).1.expenses.map
        DExpense.is_essential = [0])
      ∧ some "true" ≠ (none : Option String) := by
  exact ⟨by decide, by decide⟩

/-- C6 (amended): a successful add inserts exactly one row whose stored
essential flag is `1` exactly when the `is_essential` marker is present with
the value `"on"`, and `0` otherwise (absent marker or any other value). -/
theorem add_expense_essential_flag (db : Db) (sess : Session) (form : ExpenseForm)
    (db' : Db) (h : add_expense db sess form = (db', .ok)) :
    ∃ e, db'.expenses = db.expenses ++ [e]
      ∧ e.is_essential = (if form.is_essential = some "on" then 1 else 0) := by
  simp only [add_expense] at h
  by_cases he : validateExpenseForm (pyStrip form.category_id)
      (pyStrip form.amount) (pyStrip form.description)
      (pyStrip form.expense_date) = []
  · rw [if_pos he] at h
    simp only [Prod.mk.injEq] at h
    obtain ⟨hdb, -⟩ := h
    subst hdb
    exact ⟨_, rfl, rfl⟩
  · rw [if_neg he] at h
    simp at h

theorem add_expense_essential_flag_witness :
    ∃ e, (add_expense dbFix sessFix formFix).1.expenses = dbFix.expenses ++ [e]
      ∧ e.is_essential = (if formFix.is_essential = some "on" then 1 else 0) :=
  add_expense_essential_flag dbFix sessFix formFix _ (by decide)

/-- Helper: after inserting a category name it is present. -/
theorem insertOrIgnoreCategory_has (db : Db) (n : String) :
    ((insertOrIgnoreCategory db n).categories.any (fun c => c.name == n)) = true := by
  unfold insertOrIgnoreCategory
  split
  · assumption
  · simp [List.any_append]

/-- Helper: inserting a category keeps every present name present. -/
theorem insertOrIgnoreCategory_keeps (db : Db) (n m : String)
    (h : (db.categories.any (fun c => c.name == m)) = true) :
    ((insertOrIgnoreCategory db n).categories.any (fun c => c.name == m)) = true := by
  unfold insertOrIgnoreCategory
  split
  · exact h
  · simp [List.any_append, h]

/-- Helper: inserting an already present category name is the identity. -/
theorem insertOrIgnoreCategory_of_present (db : Db) (n : String)
    (h : (db.categories.any (fun c => c.name == n)) = true) :
    insertOrIgnoreCategory db n = db := by
  unfold insertOrIgnoreCategory
  rw [if_pos h]

/-- Helper: category inserts only touch the categories table and its counter. -/
theorem insertOrIgnoreCategory_users (db : Db) (n : String) :
    (insertOrIgnoreCategory db n).users = db.users := by
  unfold insertOrIgnoreCategory
  split <;> rfl

theorem insertOrIgnoreCategory_expenses (db : Db) (n : String) :
    (insertOrIgnoreCategory db n).expenses = db.expenses := by
  unfold insertOrIgnoreCategory
  split <;> rfl

/-- Helper: a seeded name is present after the category seeding fold. -/
theorem foldl_insertCat_has : ∀ (names : List String) (db : Db) (n : String),
    n ∈ names →
    (((names.foldl insertOrIgnoreCategory db).categories.any
      (fun c => c.name == n)) = true)
  | [], _, _, h => absurd h (List.not_mem_nil _)
  | a :: names, db, n, h => by
    rcases List.mem_cons.mp h with rfl | hmem
    · exact foldl_keeps names _ n (insertOrIgnoreCategory_has db n)
    · exact foldl_insertCat_has names _ n hmem
where
  foldl_keeps : ∀ (names : List String) (db : Db) (m : String),
      ((db.categories.any (fun c => c.name == m)) = true) →
      (((names.foldl insertOrIgnoreCategory db).categories.any
        (fun c => c.name == m)) = true)
    | [], _, _, h => h
    | a :: names, db, m, h =>
      foldl_keeps names _ m (insertOrIgnoreCategory_keeps db a m h)

/-- Helper: the category seeding fold is the identity when every seeded name
is already present. -/
theorem foldl_insertCat_id : ∀ (names : List String) (db : Db),
    (∀ n ∈ names, (db.categories.any (fun c => c.name == n)) = true) →
    names.foldl insertOrIgnoreCategory db = db
  | [], _, _ => rfl
  | a :: names, db, h => by
    have ha := insertOrIgnoreCategory_of_present db a (h a (List.mem_cons_self a names))
    simp only [List.foldl_cons, ha]
    exact foldl_insertCat_id names db (fun n hn => h n (List.mem_cons_of_mem a hn))

/-- Helper: the category seeding fold only appends new category rows. -/
theorem foldl_insertCat_append : ∀ (names : List String) (db : Db),
    ∃ l, (names.foldl insertOrIgnoreCategory db).categories = db.categories ++ l
  | [], db => ⟨[], (List.append_nil _).symm⟩
  | a :: names, db => by
    obtain ⟨l, hl⟩ := foldl_insertCat_append names (insertOrIgnoreCategory db a)
    simp only [List.foldl_cons]
    by_cases h : (db.categories.any (fun c => c.name == a)) = true
    · rw [insertOrIgnoreCategory_of_present db a h] at hl ⊢
      exact ⟨l, hl⟩
    · have hcats : (insertOrIgnoreCategory db a).categories
          = db.categories ++ [{ id := db.nextCategoryId, name := a }] := by
        unfold insertOrIgnoreCategory
        rw [if_neg h]
      rw [hcats] at hl
      refine ⟨{ id := db.nextCategoryId, name := a } :: l, ?_⟩
      rw [hl, List.append_assoc]
      rfl

/-- Helper: the category seeding fold leaves users and expenses unchanged. -/
theorem foldl_insertCat_users : ∀ (names : List String) (db : Db),
    (names.foldl insertOrIgnoreCategory db).users = db.users
  | [], _ => rfl
  | a :: names, db => by
    simp only [List.foldl_cons]
    rw [foldl_insertCat_users names _, insertOrIgnoreCategory_users]

theorem foldl_insertCat_expenses : ∀ (names : List String) (db : Db),
    (names.foldl insertOrIgnoreCategory db).expenses = db.expenses
  | [], _ => rfl
  | a :: names, db => by
    simp only [List.foldl_cons]
    rw [foldl_insertCat_expenses names _, insertOrIgnoreCategory_expenses]

/-- Helper: after inserting a username it is present. -/
theorem insertOrIgnoreUser_has (db : Db) (u p r : String) :
    ((insertOrIgnoreUser db u p r).users.any (fun x => x.username == u)) = true := by
  unfold insertOrIgnoreUser
  split
  · assumption
  · simp [List.any_append]

/-- Helper: inserting a user keeps every present username present. -/
theorem insertOrIgnoreUser_keeps (db : Db) (u p r m : String)
    (h : (db.users.any (fun x => x.username == m)) = true) :
    ((insertOrIgnoreUser db u p r).users.any (fun x => x.username == m)) = true := by
  unfold insertOrIgnoreUser
  split
  · exact h
  · simp [List.any_append, h]

/-- Helper: inserting an already present username is the identity. -/
theorem insertOrIgnoreUser_of_present (db : Db) (u p r : String)
    (h : (db.users.any (fun x => x.username == u)) = true) :
    insertOrIgnoreUser db u p r = db := by
  unfold insertOrIgnoreUser
  rw [if_pos h]

/-- Helper: user inserts only touch the users table and its counter. -/
theorem insertOrIgnoreUser_categories (db : Db) (u p r : String) :
    (insertOrIgnoreUser db u p r).categories = db.categories := by
  unfold insertOrIgnoreUser
  split <;> rfl

theorem insertOrIgnoreUser_expenses (db : Db) (u p r : String) :
    (insertOrIgnoreUser db u p r).expenses = db.expenses := by
  unfold insertOrIgnoreUser
  split <;> rfl

/-- Helper: user inserts only append user rows. -/
theorem insertOrIgnoreUser_append (db : Db) (u p r : String) :
    ∃ l, (insertOrIgnoreUser db u p r).users = db.users ++ l := by
  unfold insertOrIgnoreUser
  split
  · exact ⟨[], (List.append_nil _).symm⟩
  · exact ⟨_, rfl⟩

/-- Helper: every seeded category name is present after `init_db`. -/
theorem init_db_has_cats (db : Db) (n : String) (hn : n ∈ defaultCategories) :
    (((init_db db).categories.any (fun c => c.name == n)) = true) := by
  simp only [init_db]
  rw [insertOrIgnoreUser_categories, insertOrIgnoreUser_categories]
  exact foldl_insertCat_has _ _ _ hn

/-- Helper: both seed usernames are present after `init_db`. -/
theorem init_db_has_student (db : Db) :
    (((init_db db).users.any (fun x => x.username == "student")) = true) := by
  simp only [init_db]
  exact insertOrIgnoreUser_keeps _ _ _ _ _ (insertOrIgnoreUser_has _ _ _ _)

theorem init_db_has_admin (db : Db) :
    (((init_db db).users.any (fun x => x.username == "admin")) = true) := by
  simp only [init_db]
  exact insertOrIgnoreUser_has _ _ _ _

/-- Helper: `init_db` is the identity on a store that already carries the six
seed category names and the two seed usernames. -/
theorem init_db_stable (d : Db)
    (hc : ∀ n ∈ defaultCategories, (d.categories.any (fun c => c.name == n)) = true)
    (hs : (d.users.any (fun x => x.username == "student")) = true)
    (ha : (d.users.any (fun x => x.username == "admin")) = true) :
    init_db d = d := by
  simp only [init_db]
  rw [foldl_insertCat_id _ _ hc, insertOrIgnoreUser_of_present _ _ _ _ hs,
    insertOrIgnoreUser_of_present _ _ _ _ ha]

/-- C9: re-running the bootstrap seeding on a store where it has already run
is a no-op (idempotence), and on any store the seeding only appends rows: the
pre-existing category, user and expense rows (in particular an existing seed
account with its password and role) are left unchanged. -/
theorem init_db_idempotent (db : Db) :
    init_db (init_db db) = init_db db
      ∧ (∃ l, (init_db db).categories = db.categories ++ l)
      ∧ (∃ l, (init_db db).users = db.users ++ l)
      ∧ (init_db db).expenses = db.expenses := by
  refine ⟨?_, ?_, ?_, ?_⟩
  · exact init_db_stable _ (fun n hn => init_db_has_cats db n hn)
      (init_db_has_student db) (init_db_has_admin db)
  · simp only [init_db]
    rw [insertOrIgnoreUser_categories, insertOrIgnoreUser_categories]
    exact foldl_insertCat_append _ _
  · simp only [init_db]
    obtain ⟨l1, h1⟩ := insertOrIgnoreUser_append
      (defaultCategories.foldl insertOrIgnoreCategory db) "student" "student123" "user"
    obtain ⟨l2, h2⟩ := insertOrIgnoreUser_append
      (insertOrIgnoreUser (defaultCategories.foldl insertOrIgnoreCategory db)
        "student" "student123" "user") "admin" "admin123" "admin"
    refine ⟨l1 ++ l2, ?_⟩
    rw [h2, h1, foldl_insertCat_users, List.append_assoc]
  · simp only [init_db]
    rw [insertOrIgnoreUser_expenses, insertOrIgnoreUser_expenses,
      foldl_insertCat_expenses]

/-- Helper: two characters with the same codepoint are equal. -/
theorem char_toNat_inj {a b : Char} (h : a.toNat = b.toNat) : a = b := by
  rw [← Char.ofNat_toNat a, ← Char.ofNat_toNat b, h]

/-- Helper: the lexicographic order on character lists is transitive. -/
theorem lexLt_trans : ∀ (as bs cs : List Char),
    lexLt as bs = true → lexLt bs cs = true → lexLt as cs = true
  | [], _, _ :: _, _, _ => rfl
  | [], [], [], h1, _ => by simp [lexLt] at h1
  | [], _ :: _, [], _, h2 => by simp [lexLt] at h2
  | _ :: _, [], _, h1, _ => by simp [lexLt] at h1
  | _ :: _, _ :: _, [], _, h2 => by simp [lexLt] at h2
  | a :: as, b :: bs, c :: cs, h1, h2 => by
    simp only [lexLt] at h1 h2 ⊢
    by_cases hab1 : a.toNat < b.toNat
    · by_cases hbc1 : b.toNat < c.toNat
      · simp [Nat.lt_trans hab1 hbc1]
      · by_cases hbc2 : c.toNat < b.toNat
        · simp [hbc1, hbc2] at h2
        · have : b.toNat = c.toNat := Nat.le_antisymm (Nat.not_lt.mp hbc2) (Nat.not_lt.mp hbc1)
          simp [this ▸ hab1]
    · by_cases hab2 : b.toNat < a.toNat
      · simp [hab1, hab2] at h1
      · have hab : a.toNat = b.toNat := Nat.le_antisymm (Nat.not_lt.mp hab2) (Nat.not_lt.mp hab1)
        simp only [hab1, hab2, if_false] at h1
        by_cases hbc1 : b.toNat < c.toNat
        · simp [hab ▸ hbc1]
        · by_cases hbc2 : c.toNat < b.toNat
          · simp [hbc1, hbc2] at h2
          · simp only [hbc1, hbc2, if_false] at h2
            have hac1 : ¬ a.toNat < c.toNat := by omega
            have hac2 : ¬ c.toNat < a.toNat := by omega
            simp only [hac1, hac2, if_false]
            exact lexLt_trans as bs cs (by simpa using h1) (by simpa using h2)

/-- Helper: two character lists neither of which is below the other are
equal. -/
theorem lexLt_eq_of_not : ∀ (as bs : List Char),
    lexLt as bs = false → lexLt bs as = false → as = bs
  | [], [], _, _ => rfl
  | [], _ :: _, h1, _ => by simp [lexLt] at h1
  | _ :: _, [], _, h2 => by simp [lexLt] at h2
  | a :: as, b :: bs, h1, h2 => by
    simp only [lexLt] at h1 h2
    by_cases hab1 : a.toNat < b.toNat
    · simp [hab1] at h1
    · by_cases hab2 : b.toNat < a.toNat
      · simp [hab1, hab2] at h2
      · have hab : a.toNat = b.toNat := Nat.le_antisymm (Nat.not_lt.mp hab2) (Nat.not_lt.mp hab1)
        simp only [hab1, hab2, if_false] at h1 h2
        rw [char_toNat_inj hab,
          lexLt_eq_of_not as bs (by simpa using h1) (by simpa using h2)]

/-- Helper: the listing order is transitive. -/
theorem rowOrder_trans (a b c : ListedRow) :
    rowOrder a b → rowOrder b c → rowOrder a c := by
  intro h1 h2
  rcases h1 with h1 | ⟨h1e, h1i⟩
  · rcases h2 with h2 | ⟨h2e, h2i⟩
    · exact Or.inl (lexLt_trans _ _ _ h2 h1)
    · exact Or.inl (by rw [← h2e]; exact h1)
  · rcases h2 with h2 | ⟨h2e, h2i⟩
    · exact Or.inl (by rw [h1e]; exact h2)
    · exact Or.inr ⟨h1e.trans h2e, Nat.le_trans h2i h1i⟩

/-- Helper: the listing order is total. -/
theorem rowOrder_total (a b : ListedRow) : rowOrder a b ∨ rowOrder b a := by
  by_cases h1 : strLtB b.expense_date a.expense_date = true
  · exact Or.inl (Or.inl h1)
  · by_cases h2 : strLtB a.expense_date b.expense_date = true
    · exact Or.inr (Or.inl h2)
    · have hdata : a.expense_date.data = b.expense_date.data :=
        lexLt_eq_of_not _ _
          (Bool.not_eq_true _ ▸ h2) (Bool.not_eq_true _ ▸ h1)
      have heq : a.expense_date = b.expense_date := String.ext hdata
      rcases Nat.le_total b.id a.id with hle | hle
      · exact Or.inl (Or.inr ⟨heq, hle⟩)
      · exact Or.inr (Or.inr ⟨heq.symm, hle⟩)

/-- C8: the listing result is sorted by expense date descending with the
expense identifier descending as tie-break among equal dates, for every
filter combination (`strLtB` is the bytewise order SQLite applies to the
stored date strings). -/
theorem listing_sorted (db : Db) (sess : Session) (p : QueryParams) :
    List.Pairwise
      (fun a b : ListedRow =>
        strLtB b.expense_date a.expense_date = true
          ∨ (a.expense_date = b.expense_date ∧ b.id ≤ a.id))
      (expensesQuery db sess p) := by
  haveI : IsTrans ListedRow rowOrder := ⟨rowOrder_trans⟩
  haveI : IsTotal ListedRow rowOrder := ⟨rowOrder_total⟩
  simp only [expensesQuery]
  exact List.sorted_insertionSort rowOrder _


/-- Helper: testing a key over the mapped keys equals testing it over the
entries. -/
theorem any_map_fst : ∀ (m : List (String × ℚ)) (c : String),
    ((m.map Prod.fst).any fun x => x == c) = (m.any fun p => p.1 == c)
  | [], _ => rfl
  | p :: m, c => by
    simp only [List.map_cons, List.any_cons, any_map_fst m c]

/-- Helper: the keys of the mapping after one totals update. -/
theorem updateCategoryTotal_keys (m : List (String × ℚ)) (c : String) (a : ℚ) :
    (updateCategoryTotal m c a).map Prod.fst =
      if ((m.map Prod.fst).any fun x => x == c) = true
      then m.map Prod.fst else m.map Prod.fst ++ [c] := by
  rw [any_map_fst]
  unfold updateCategoryTotal
  by_cases h : (m.any fun p => p.1 == c) = true
  · rw [if_pos h, if_pos h, List.map_map]
    apply List.map_congr_left
    intro p hp
    by_cases hc : (p.1 == c) = true <;> simp [Function.comp, hc]
  · rw [if_neg h, if_neg h]
    simp

/-- Helper: the grand total accumulated by the totals loop. -/
theorem computeTotals_fst : ∀ (rows : List ListedRow) (t0 : ℚ) (m0 : List (String × ℚ)),
    (rows.foldl computeTotalsStep (t0, m0)).1 = t0 + (rows.map ListedRow.amount).sum
  | [], t0, m0 => by simp
  | r :: rows, t0, m0 => by
    simp only [List.foldl_cons, computeTotalsStep, List.map_cons, List.sum_cons]
    rw [computeTotals_fst rows _ _, add_assoc]

/-- Helper: the keys accumulated by the totals loop, in first-seen order. -/
theorem computeTotals_keys : ∀ (rows : List ListedRow) (t0 : ℚ) (m0 : List (String × ℚ)),
    ((rows.foldl computeTotalsStep (t0, m0)).2).map Prod.fst =
      rows.foldl
        (fun acc r => if (acc.any fun x => x == r.category_name) = true
          then acc else acc ++ [r.category_name])
        (m0.map Prod.fst)
  | [], _, _ => rfl
  | r :: rows, t0, m0 => by
    simp only [List.foldl_cons, computeTotalsStep]
    rw [computeTotals_keys rows _ _, updateCategoryTotal_keys]

/-- Helper: looking a key up after updating every entry carrying it. -/
theorem lookupTotal_map_update (m : List (String × ℚ)) (cu : String) (a : ℚ)
    (c : String) :
    lookupTotal (m.map (fun p => if p.1 == cu then (p.1, p.2 + a) else p)) c =
      lookupTotal m c
        + (if (cu == c) = true ∧ (m.any fun p => p.1 == c) = true then a else 0) := by
  unfold lookupTotal
  rw [List.find?_map]
  have hpred : ((fun p : String × ℚ => p.1 == c) ∘
      (fun p : String × ℚ => if p.1 == cu then (p.1, p.2 + a) else p))
      = (fun p : String × ℚ => p.1 == c) := by
    funext q
    by_cases hq : (q.1 == cu) = true <;> simp [Function.comp, hq]
  rw [hpred]
  cases hf : m.find? (fun p => p.1 == c) with
  | none =>
    have hany : (m.any fun p => p.1 == c) = false := by
      rw [List.any_eq_false]
      intro p hp
      simpa using List.find?_eq_none.mp hf p hp
    simp [hany]
  | some q =>
    have hfq := List.find?_some hf
    have hany : (m.any fun p => p.1 == c) = true :=
      List.any_eq_true.mpr ⟨q, List.mem_of_find?_eq_some hf, hfq⟩
    have hqc : q.1 = c := by simpa using hfq
    by_cases hcu : (cu == c) = true
    · have hqcu : (q.1 == cu) = true := by
        have hcc : cu = c := by simpa using hcu
        simp [hqc, hcc]
      simp [hqcu, hcu, hany]
      rw [if_pos (by simpa using hqcu)]
    · have hqcu : (q.1 == cu) = false := by
        simp only [beq_eq_false_iff_ne]
        intro he
        exact absurd (by simp [← he, hqc]) hcu
      simp [hqcu, hcu, hany]
      rw [if_neg (by simpa using hqcu)]

/-- Helper: looking a key up after appending a fresh entry. -/
theorem lookupTotal_append_new (m : List (String × ℚ)) (cu : String) (a : ℚ)
    (c : String) :
    lookupTotal (m ++ [(cu, a)]) c =
      lookupTotal m c
        + (if (cu == c) = true ∧ (m.any fun p => p.1 == c) = false then a else 0) := by
  unfold lookupTotal
  rw [List.find?_append]
  cases hf : m.find? (fun p => p.1 == c) with
  | some q =>
    have hfq := List.find?_some hf
    have hany : (m.any fun p => p.1 == c) = true :=
      List.any_eq_true.mpr ⟨q, List.mem_of_find?_eq_some hf, hfq⟩
    simp [hany]
  | none =>
    have hany : (m.any fun p => p.1 == c) = false := by
      rw [List.any_eq_false]
      intro p hp
      simpa using List.find?_eq_none.mp hf p hp
    by_cases hcu : (cu == c) = true
    · simp [List.find?, hcu, hany]
    · simp [List.find?, hcu, hany]

/-- Helper: one totals-loop update adds the amount exactly to its own
category key. -/
theorem lookupTotal_update (m : List (String × ℚ)) (cu : String) (a : ℚ)
    (c : String) :
    lookupTotal (updateCategoryTotal m cu a) c =
      lookupTotal m c + (if (cu == c) = true then a else 0) := by
  unfold updateCategoryTotal
  by_cases h : (m.any fun p => p.1 == cu) = true
  · rw [if_pos h, lookupTotal_map_update]
    congr 1
    by_cases hc : (cu == c) = true
    · have hcc : cu = c := by simpa using hc
      have hcany : (m.any fun p => p.1 == c) = true := hcc ▸ h
      simp [hc, hcany]
    · simp [hc]
  · rw [if_neg h, lookupTotal_append_new]
    congr 1
    by_cases hc : (cu == c) = true
    · have hcc : cu = c := by simpa using hc
      have hcany : (m.any fun p => p.1 == c) = false := by
        rw [← hcc]
        exact Bool.not_eq_true _ ▸ h
      simp [hc, hcany]
    · simp [hc]

/-- Helper: the subtotal accumulated by the totals loop for each key. -/
theorem computeTotals_lookup :
    ∀ (rows : List ListedRow) (t0 : ℚ) (m0 : List (String × ℚ)) (c : String),
    lookupTotal ((rows.foldl computeTotalsStep (t0, m0)).2) c =
      lookupTotal m0 c
        + ((rows.filter (fun r => r.category_name == c)).map ListedRow.amount).sum
  | [], _, _, _ => by simp
  | r :: rows, t0, m0, c => by
    simp only [List.foldl_cons, computeTotalsStep]
    rw [computeTotals_lookup rows _ _ c, lookupTotal_update]
    by_cases hc : (r.category_name == c) = true
    · simp [List.filter_cons, hc, add_assoc]
    · simp [List.filter_cons, hc]

/-- C4: the grand total computed by the listing handler equals the sum of the
amounts of exactly the rows returned by the same filtered query; every
per-category subtotal equals the sum of the amounts of that category in the
result set; the subtotal keys appear in first-seen order of the category in
the result set; and on the empty result set the total is 0 and the mapping
is empty. -/
theorem totals_match_listing (db : Db) (sess : Session) (p : QueryParams) :
    (computeTotals (expensesQuery db sess p)).1
        = ((expensesQuery db sess p).map ListedRow.amount).sum
      ∧ (computeTotals (expensesQuery db sess p)).2.map Prod.fst
          = firstSeen ((expensesQuery db sess p).map ListedRow.category_name)
      ∧ (∀ c, lookupTotal (computeTotals (expensesQuery db sess p)).2 c
          = (((expensesQuery db sess p).filter
              (fun r => r.category_name == c)).map ListedRow.amount).sum)
      ∧ computeTotals ([] : List ListedRow) = ((0 : ℚ), ([] : List (String × ℚ))) := by
  refine ⟨?_, ?_, ?_, rfl⟩
  · rw [computeTotals, computeTotals_fst, zero_add]
  · rw [computeTotals, computeTotals_keys, firstSeen, List.foldl_map]
    rfl
  · intro c
    rw [computeTotals, computeTotals_lookup]
    simp [lookupTotal]

/-- C5 (counterexample): the supplied value `"0"` parses as the integer 0,
which is not a positive integer, yet it is honored as a filter predicate and
yields a different result set than omitting the parameter. -/
theorem category_filter_zero_counterexample :
    expensesQuery dbFix1 sessFix
        { category_id := "0", date_from := "", date_to := "", essential := "" }
        ≠ expensesQuery dbFix1 sessFix pEmpty
      ∧ digitStringToNat "0" = 0 := by
  exact ⟨by decide, rfl⟩

/-- C5 (amended): the category filter is applied iff the stripped
`category_id` is a non-empty digit string (parses as a nonnegative integer):
any other value contributes no predicate and yields the same result set as
omitting the parameter; a digit string restricts every returned row to that
category id. -/
theorem category_filter_spec (db : Db) (sess : Session) (p : QueryParams) :
    (pyIsDigit (pyStrip p.category_id) = false →
      expensesQuery db sess p
        = expensesQuery db sess { p with category_id := "" })
    ∧ (pyIsDigit (pyStrip p.category_id) = true →
      ∀ r ∈ expensesQuery db sess p,
        r.category_id = digitStringToNat (pyStrip p.category_id)) := by
  constructor
  · intro h
    simp only [expensesQuery]
    congr 1
    apply List.filter_congr
    intro r hr
    unfold rowMatches
    rw [h]
    have h0 : pyIsDigit (pyStrip "") = false := by decide
    rw [h0]
    simp
  · intro h r hmem
    simp only [expensesQuery] at hmem
    rw [List.mem_insertionSort] at hmem
    have hm := (List.mem_filter.mp hmem).2
    unfold rowMatches at hm
    simp only [Bool.and_eq_true, Bool.or_eq_true, beq_iff_eq,
      Bool.not_eq_true'] at hm
    rcases hm with ⟨⟨⟨⟨-, h2⟩, -⟩, -⟩, -⟩
    rcases h2 with h2 | h2
    · rw [h] at h2
      cases h2
    · exact h2

theorem category_filter_spec_witness :
    expensesQuery dbFix1 sessFix
        { category_id := "abc", date_from := "", date_to := "", essential := "" }
        = expensesQuery dbFix1 sessFix
          { category_id := "", date_from := "", date_to := "", essential := "" }
      ∧ rowFix.category_id = digitStringToNat (pyStrip "1") :=
  ⟨(category_filter_spec dbFix1 sessFix
      { category_id := "abc", date_from := "", date_to := "", essential := "" }).1
      (by decide),
   (category_filter_spec dbFix1 sessFix
      { category_id := "1", date_from := "", date_to := "", essential := "" }).2
      (by decide) rowFix (by decide)⟩

/-- Helper: the validation block accepts exactly when the category id is a
digit string, the amount parses to a value not `<= 0`, and the stripped
description and date are non-empty. -/
theorem validateExpenseForm_eq_nil_iff (c a d e : String) :
    validateExpenseForm c a d e = [] ↔
      (pyIsDigit c = true
        ∧ (∃ v, parsePyFloat a = some v ∧ v.le0 = false)
        ∧ d ≠ "" ∧ e ≠ "") := by
  unfold validateExpenseForm
  rcases hp : parsePyFloat a with _ | v
  · constructor
    · intro h
      exfalso
      simp [List.append_eq_nil] at h
    · rintro ⟨-, ⟨v, hv, -⟩, -, -⟩
      cases hv
  · by_cases hle : v.le0 = true
    · constructor
      · intro h
        exfalso
        simp [hle, List.append_eq_nil] at h
      · rintro ⟨-, ⟨w, hw, hw2⟩, -, -⟩
        injection hw with hw
        subst hw
        rw [hle] at hw2
        cases hw2
    · constructor
      · intro h
        simp only [hle, if_false, List.append_eq_nil] at h
        obtain ⟨⟨⟨h1, -⟩, h3⟩, h4⟩ := h
        refine ⟨?_, ⟨v, rfl, by simpa using hle⟩, ?_, ?_⟩
        · by_cases hc : pyIsDigit c = true
          · exact hc
          · simp [hc] at h1
        · intro hd
          simp [hd] at h3
        · intro hee
          simp [hee] at h4
      · rintro ⟨h1, -, h3, h4⟩
        simp [h1, hle, h3, h4]

/-- Helper: each validation message is collected exactly when its rule is
violated, so all violated rules are reported together. -/
theorem validateExpenseForm_mem_iff (c a d e : String) :
    ("Please select a valid category." ∈ validateExpenseForm c a d e
        ↔ pyIsDigit c = false)
      ∧ ("Please enter a valid number for amount." ∈ validateExpenseForm c a d e
        ↔ parsePyFloat a = none)
      ∧ ("Amount must be greater than 0." ∈ validateExpenseForm c a d e
        ↔ (∃ v, parsePyFloat a = some v ∧ v.le0 = true))
      ∧ ("Description is required." ∈ validateExpenseForm c a d e ↔ d = "")
      ∧ ("Date is required (YYYY-MM-DD)." ∈ validateExpenseForm c a d e
        ↔ e = "") := by
  unfold validateExpenseForm
  rcases hp : parsePyFloat a with _ | v
  · by_cases h1 : pyIsDigit c = true <;> by_cases h3 : d = "" <;>
      by_cases h4 : e = "" <;>
      simp [h1, h3, h4, Bool.not_eq_true]
  · by_cases hle : v.le0 = true <;> by_cases h1 : pyIsDigit c = true <;>
      by_cases h3 : d = "" <;> by_cases h4 : e = "" <;>
      simp [h1, h3, h4, hle, Bool.not_eq_true]

/-- C3 (counterexample): the category value `"0"` passes validation and the
submission is accepted although `"0"` parses as 0, which is not a positive
integer; and the amount `"nan"` passes validation although NaN is not a real
number strictly greater than 0. -/
theorem add_expense_accepts_counterexample :
    validateExpenseForm "0" "5" "lunch" "2024-01-01" = []
      ∧ (add_expense dbFix sessFix
          { category_id := "0", amount := "5", description := "lunch"
            expense_date := "2024-01-01", is_essential := none }).2 = .ok
      ∧ digitStringToNat "0" = 0
      ∧ validateExpenseForm "1" "nan" "lunch" "2024-01-01" = [] := by
  exact ⟨by decide, by decide, rfl, by decide⟩

/-- C3 (amended): Add Expense accepts a submission iff the stripped category
id is a digit string (a nonnegative integer), the stripped amount parses via
`float` to a value that is not `<= 0` (a positive finite number, positive
infinity or NaN), and the stripped description and date are non-empty; on
rejection every violated rule is collected in the reported list (exactly the
violated ones) and no row is inserted (the store is unchanged). -/
theorem add_expense_accepts_iff (db : Db) (sess : Session) (form : ExpenseForm) :
    ((add_expense db sess form).2 = .ok ↔
      (pyIsDigit (pyStrip form.category_id) = true
        ∧ (∃ v, parsePyFloat (pyStrip form.amount) = some v ∧ v.le0 = false)
        ∧ pyStrip form.description ≠ "" ∧ pyStrip form.expense_date ≠ ""))
    ∧ (∀ errs, (add_expense db sess form).2 = .invalid errs →
        (add_expense db sess form).1 = db
        ∧ ("Please select a valid category." ∈ errs
            ↔ pyIsDigit (pyStrip form.category_id) = false)
        ∧ ("Please enter a valid number for amount." ∈ errs
            ↔ parsePyFloat (pyStrip form.amount) = none)
        ∧ ("Amount must be greater than 0." ∈ errs
            ↔ (∃ v, parsePyFloat (pyStrip form.amount) = some v ∧ v.le0 = true))
        ∧ ("Description is required." ∈ errs ↔ pyStrip form.description = "")
        ∧ ("Date is required (YYYY-MM-DD)." ∈ errs
            ↔ pyStrip form.expense_date = "")) := by
  have hval := validateExpenseForm_eq_nil_iff (pyStrip form.category_id)
    (pyStrip form.amount) (pyStrip form.description) (pyStrip form.expense_date)
  have hmem := validateExpenseForm_mem_iff (pyStrip form.category_id)
    (pyStrip form.amount) (pyStrip form.description) (pyStrip form.expense_date)
  by_cases he : validateExpenseForm (pyStrip form.category_id)
      (pyStrip form.amount) (pyStrip form.description)
      (pyStrip form.expense_date) = []
  · constructor
    · constructor
      · intro _
        exact hval.mp he
      · intro _
        simp [add_expense, he]
    · intro errs herrs
      exfalso
      simp [add_expense, he] at herrs
  · constructor
    · constructor
      · intro hok
        exfalso
        simp [add_expense, he] at hok
      · intro hr
        exact absurd (hval.mpr hr) he
    · intro errs herrs
      have herrs2 : validateExpenseForm (pyStrip form.category_id)
          (pyStrip form.amount) (pyStrip form.description)
          (pyStrip form.expense_date) = errs := by
        simpa [add_expense, he] using herrs
      subst herrs2
      exact ⟨by simp [add_expense, he], hmem.1, hmem.2.1, hmem.2.2.1,
        hmem.2.2.2.1, hmem.2.2.2.2⟩

theorem add_expense_accepts_iff_witness :
    (add_expense dbFix sessFix
        { category_id := "", amount := "abc", description := " "
          expense_date := " ", is_essential := none }).1 = dbFix :=
  ((add_expense_accepts_iff dbFix sessFix
      { category_id := "", amount := "abc", description := " "
        expense_date := " ", is_essential := none }).2
    ["Please select a valid category.", "Please enter a valid number for amount.",
     "Description is required.", "Date is required (YYYY-MM-DD)."]
    (by decide)).1
